import Mathlib

/-!
# Verification of the CareSens i-SENS driver protocol engine

Shallow embedding of `src/lib/drivers/i-sens/careSens.js`: the binary codec
(`buildPacket`, `extractHeader`, `extractPacketIntoMessages`, `verifyChecksum`),
the fragmented-report reassembly loop of `commandResponse`, the `ping`
handshake, the paginated `getRecords` fetch, and the record normalisation
passes `buildBGRecords` / `buildKetoneRecords` / `processData`.

Bytes are modelled as `Nat` (with explicit `% 256` where the source stores into
a `Uint8Array`), 16-bit checksums as `Nat` with explicit `% 65536`, byte
buffers as `List Nat`, the 4-character ASCII command tokens as their 4-byte
representations (`List Nat`), and JS exceptions as `Except String`.
-/

deriving instance DecidableEq for Except

namespace CareSens

/-! ## Protocol constants (careSens.js lines 32-107) -/

/-- `ASCII_CONTROL.STX` (careSens.js line 42). -/
def ASCII_STX : Nat := 0x02

/-- `ASCII_CONTROL.ETX` (careSens.js line 43). -/
def ASCII_ETX : Nat := 0x03

/-- `COMMAND.HEADER = 'iSPc'` as ASCII bytes (careSens.js line 33). -/
def COMMAND_HEADER : List Nat := [0x69, 0x53, 0x50, 0x63]

/-- `COMMAND.GLUCOSE_RESULT = 'GLUE'` as ASCII bytes (careSens.js line 34). -/
def CMD_GLUCOSE_RESULT : List Nat := [0x47, 0x4C, 0x55, 0x45]

/-- `COMMAND.READ_TIME = 'RTIM'` as ASCII bytes (careSens.js line 37). -/
def CMD_READ_TIME : List Nat := [0x52, 0x54, 0x49, 0x4D]

/-- `HEADER_SIZE` (careSens.js line 105). -/
def HEADER_SIZE : Nat := 6

/-! ## Checksum engine -/

/-- Modelled from the spec: the checksum subroutine `crcCalculator.calcCRC_A`
lives in `lib/crc.js`, which is not under `src/`; §4.2 of the spec describes it
as a deterministic, pure 16-bit CRC (ITU/ANSI polynomial class) over the first
`length` bytes of a buffer.  We model it as the ISO/IEC 14443 CRC-A
(initial value `0x6363`), matching the source function's name; none of the
verified claims depends on the particular polynomial, only on the function
being deterministic and 16-bit. -/
def calcCRC_A (buffer : List Nat) (length : Nat) : Nat :=
  (List.range length).foldl
    (fun crc i =>
      let ch0 := buffer.getD i 0
      let ch1 := (Nat.xor ch0 (crc % 256)) % 256
      let ch2 := (Nat.xor ch1 (ch1 * 16)) % 256
      (Nat.xor (Nat.xor (Nat.xor (crc / 256) (ch2 * 256)) (ch2 * 8)) (ch2 / 16)) % 65536)
    0x6363

/-! ## Binary codec -/

/-- `struct.pack`'s `Nz` format: a string packed into exactly `n` bytes,
truncated at `n` and padded with the buffer's zero bytes (struct.js semantics;
the byte store into a `Uint8Array` masks with `% 256`). -/
def packZ (s : List Nat) (n : Nat) : List Nat :=
  ((s.map (fun b => b % 256)).take n) ++ List.replicate (n - s.length) 0

/-- `struct.unpack`'s `Nz` format: read up to `n` bytes at `offset`, stopping
at a zero byte. -/
def unpackZ (bytes : List Nat) (offset n : Nat) : List Nat :=
  ((bytes.drop offset).take n).takeWhile (fun b => decide (b ≠ 0))

/-- `struct.extractBEShort`: big-endian 16-bit read at `offset`. -/
def extractBEShort (bytes : List Nat) (offset : Nat) : Nat :=
  bytes.getD offset 0 * 256 + bytes.getD (offset + 1) 0

/-- The packet bytes from offset 1 at the moment `buildPacket` computes its
CRC (careSens.js lines 122-125): `[STX]['iSPc'][datalen][command][payload]`
followed by the placeholder `ETX` that `struct.storeByte` put where the CRC
will later be stored, with `datalen = 7 + payload.length`. -/
def packetPreCRC (command : List Nat) (payload : List Nat) : List Nat :=
  ASCII_STX ::
    (COMMAND_HEADER ++ ((7 + payload.length) % 256) ::
      (packZ command 4 ++ payload.map (fun b => b % 256) ++ [ASCII_ETX]))

/-- The `crc` computed by `buildPacket` (careSens.js line 125):
`calcCRC_A(bytes.slice(1), packetlen - 3)`, where at that moment `bytes`
holds the packet prefix with the placeholder terminator, i.e. exactly
`packetPreCRC` (the CRC bytes are still zero and lie beyond `packetlen - 3`). -/
def packetCRC (command : List Nat) (payload : List Nat) : Nat :=
  calcCRC_A (packetPreCRC command payload) (7 + payload.length + 7 - 3)

/-- `CareSens.buildPacket(command, payload)` (careSens.js lines 116-131).
Layout: `[packetlen][STX]['iSPc'][datalen][command][payload][CRC hi][CRC lo][ETX]`
with `datalen = 7 + payload.length` and `packetlen = datalen + 7`: the
placeholder terminator of `packetPreCRC` is overwritten by the 2-byte
big-endian CRC followed by the real terminator. -/
def buildPacket (command : List Nat) (payload : List Nat) : List Nat :=
  ((7 + payload.length + 7) % 256) ::
    ((packetPreCRC command payload).dropLast ++
      [packetCRC command payload / 256 % 256, packetCRC command payload % 256, ASCII_ETX])

/-- Result of `CareSens.extractHeader` (careSens.js lines 155-163). -/
structure HeaderFields where
  header : List Nat
  size : Nat
deriving DecidableEq, Repr

/-- `CareSens.extractHeader(bytes)` (careSens.js lines 155-163): unpack format
`.4zb` (skip one byte, 4-byte z-string, one byte), then compare the magic. -/
def extractHeader (bytes : List Nat) : Except String HeaderFields :=
  let fields : HeaderFields := ⟨unpackZ bytes 1 4, bytes.getD 5 0⟩
  if fields.header ≠ COMMAND_HEADER then .error "Header not found"
  else .ok fields

/-- The spliced byte list `verifyChecksum` recomputes the CRC over:
`bytes.splice(bytes.length - 3, 2)` removes the two stored CRC bytes,
leaving everything before them plus the final terminator byte. -/
def splicedBody (bytes : List Nat) : List Nat :=
  bytes.take (bytes.length - 3) ++ bytes.drop (bytes.length - 1)

/-- The checksum recomputed over the packet body, as `verifyChecksum` does. -/
def recomputeChecksum (bytes : List Nat) : Nat :=
  calcCRC_A (splicedBody bytes) (splicedBody bytes).length

/-- `CareSens.verifyChecksum(bytes, expected)` (careSens.js lines 146-153). -/
def verifyChecksum (bytes : List Nat) (expected : Nat) : Except String Unit :=
  if recomputeChecksum bytes ≠ expected then .error "Checksum mismatch"
  else .ok ()

/-- The decoded response of `CareSens.extractPacketIntoMessages`. -/
structure Response where
  command : List Nat
  data : List Nat
  crc : Nat
deriving DecidableEq, Repr

/-- The `struct.unpack(bytes, 6, '4z{size-7}BS', ...)` step of
`extractPacketIntoMessages`: 4-byte z-string command at offset 6, a byte array
of length `size - 7` at offset 10, then a big-endian 16-bit CRC. -/
def unpackResponse (bytes : List Nat) (size : Nat) : Response :=
  { command := unpackZ bytes 6 4
    data := (bytes.drop 10).take (size - 7)
    crc := extractBEShort bytes (10 + (size - 7)) }

/-- `CareSens.extractPacketIntoMessages(bytes)` (careSens.js lines 165-176):
decode the header, slice out command/data/crc, and verify the checksum
unless the command is the glucose-result opcode (`'GLUE'`), which is exempt
by protocol design. -/
def extractPacketIntoMessages (bytes : List Nat) : Except String Response :=
  match extractHeader bytes with
  | .error e => .error e
  | .ok fields =>
    let response := unpackResponse bytes fields.size
    if response.command ≠ CMD_GLUCOSE_RESULT then
      match verifyChecksum bytes response.crc with
      | .error e => .error e
      | .ok _ => .ok response
    else .ok response

/-! ## Stream reassembler (the read loop of `commandResponse`) -/

/-- The mutable locals of the `do … while (!foundETX)` loop in
`commandResponse` (careSens.js lines 184-219). -/
structure LoopState where
  raw : List Nat
  foundSTX : Bool
  foundETX : Bool
  packetSize : Nat
deriving DecidableEq, Repr

/-- Initial loop state: `raw = []`, flags false, `packetSize = 64`
(careSens.js lines 184-188). -/
def initLoopState : LoopState := ⟨[], false, false, 64⟩

/-- One iteration of the `commandResponse` read loop on one raw transport
report `result` (careSens.js lines 196-218): if the report is non-empty, its
first byte is the length prefix and `bytes = result.slice(1, length + 1)`;
STX is searched for in `bytes`; once found, `bytes` is appended to `raw`;
when `raw.length === HEADER_SIZE` (exact equality) the header is decoded
(which can throw `Header not found`) and `packetSize` learnt; the loop is
complete when the current report's `bytes` includes ETX and
`raw.length >= packetSize + HEADER_SIZE`. -/
def commandResponseStep (s : LoopState) (result : List Nat) : Except String LoopState :=
  if 0 < result.length then
    let length := result.getD 0 0
    let bytes := (result.drop 1).take length
    let foundSTX := s.foundSTX || bytes.contains ASCII_STX
    if foundSTX then
      let raw := s.raw ++ bytes
      if raw.length = HEADER_SIZE then
        match extractHeader raw with
        | .error e => .error e
        | .ok fields =>
          let packetSize := fields.size
          let foundETX := s.foundETX ||
            (bytes.contains ASCII_ETX && decide (packetSize + HEADER_SIZE ≤ raw.length))
          .ok ⟨raw, foundSTX, foundETX, packetSize⟩
      else
        let foundETX := s.foundETX ||
          (bytes.contains ASCII_ETX && decide (s.packetSize + HEADER_SIZE ≤ raw.length))
        .ok ⟨raw, foundSTX, foundETX, s.packetSize⟩
    else .ok s
  else .ok s

/-- Run the `commandResponse` read loop over a (finite) sequence of raw
transport reports: the loop exits as soon as `foundETX` is set; if the
supplied reports run out without completing, the state is returned as-is
(in the source the loop would keep calling `receiveTimeout` forever). -/
def runReports : LoopState → List (List Nat) → Except String LoopState
  | s, [] => .ok s
  | s, r :: rs =>
    if s.foundETX then .ok s
    else
      match commandResponseStep s r with
      | .error e => .error e
      | .ok s2 => runReports s2 rs

/-- A raw transport report carrying payload `p`: length prefix byte then the
payload bytes. -/
def mkReport (p : List Nat) : List Nat := (p.length % 256) :: p

/-- A well-formed framed packet (as reassembled, without the report-length
byte): STX, the 4-byte magic, the declared size byte, then `rest` — the
command, payload, checksum and terminator — whose length equals the declared
size. -/
def framedPacket (rest : List Nat) : List Nat :=
  ASCII_STX :: (COMMAND_HEADER ++ rest.length :: rest)

/-! ## Ping handshake (careSens.js lines 301-318) -/

/-- The fixed 2-byte probe `[0x01, 0x80]` that `ping` sends. -/
def pingProbe : List Nat := [0x01, 0x80]

/-- Outcome of a `ping` run: how many probe sends happened, the final value of
`this.retries`, and success or the thrown error. -/
structure PingOutcome where
  sends : Nat
  retries : Nat
  outcome : Except String Unit
deriving Repr

/-- `CareSens.ping()` (careSens.js lines 301-318), with the transport's reply
to the `callIdx`-th probe given by `responses callIdx` and `this.retries`
passed explicitly.  Each invocation sends the probe and reads one reply; on an
empty reply, if `retries <= 3` it increments `retries` and recurses, else it
throws `Device not responding.`; on a non-empty reply it resets `retries` to
zero. -/
def pingGo (responses : Nat → List Nat) (callIdx retries : Nat) : PingOutcome :=
  if (responses callIdx).length = 0 then
    if _h : retries ≤ 3 then
      let r := pingGo responses (callIdx + 1) (retries + 1)
      { r with sends := r.sends + 1 }
    else { sends := 1, retries := retries, outcome := .error "Device not responding." }
  else { sends := 1, retries := 0, outcome := .ok () }
termination_by 4 - retries
decreasing_by omega

/-- A full `ping` run from the constructor state `this.retries = 0`. -/
def ping (responses : Nat → List Nat) : PingOutcome := pingGo responses 0 0

/-! ## Record fetch (careSens.js lines 248-280) -/

/-- One raw decoded record: `struct.unpack(result.data, ctr, 'bbbbbbbS', ...)`
with `record.year += 2000` applied (careSens.js lines 271-272). -/
structure RawRecord where
  year : Nat
  month : Nat
  day : Nat
  hours : Nat
  minutes : Nat
  seconds : Nat
  flags : Nat
  value : Nat
deriving DecidableEq, Repr

/-- Decode one 9-byte fixed-width record at offset `ctr` of a page response:
seven single bytes then a big-endian 16-bit value. -/
def unpackRecord (data : List Nat) (ctr : Nat) : RawRecord :=
  { year := data.getD ctr 0 + 2000
    month := data.getD (ctr + 1) 0
    day := data.getD (ctr + 2) 0
    hours := data.getD (ctr + 3) 0
    minutes := data.getD (ctr + 4) 0
    seconds := data.getD (ctr + 5) 0
    flags := data.getD (ctr + 6) 0
    value := extractBEShort data (ctr + 7) }

/-- The pagination loop of `CareSens.getRecords(nrOfRecords)` (careSens.js
lines 253-280), starting at `startIndex`.  `device start count` is the `data`
field of the response to the glucose-result request for `count` records from
index `start`.  Returns the list of `(startIndex, count)` requests issued and
the accumulated records. -/
def getRecordsGo (device : Nat → Nat → List Nat) (nrOfRecords : Nat)
    (startIndex : Nat) : List (Nat × Nat) × List RawRecord :=
  if _h : startIndex ≤ nrOfRecords then
    let count := if 27 ≤ nrOfRecords - startIndex then 27 else nrOfRecords - startIndex + 1
    let data := device startIndex count
    let pageRecs := (List.range count).map (fun i => unpackRecord data (9 * i))
    let rest := getRecordsGo device nrOfRecords (startIndex + 27)
    ((startIndex, count) :: rest.1, pageRecs ++ rest.2)
  else ([], [])
termination_by nrOfRecords + 1 - startIndex
decreasing_by omega

/-- `CareSens.getRecords(nrOfRecords)`: the loop starts at `startIndex = 1`. -/
def getRecords (device : Nat → Nat → List Nat) (nrOfRecords : Nat) :
    List (Nat × Nat) × List RawRecord :=
  getRecordsGo device nrOfRecords 1

/-- The per-page record count:
`((nrOfRecords - startIndex) >= 27) ? 27 : nrOfRecords - startIndex + 1`
(careSens.js line 258). -/
def pageCount (nrOfRecords startIndex : Nat) : Nat :=
  if 27 ≤ nrOfRecords - startIndex then 27 else nrOfRecords - startIndex + 1

/-- The records decoded from one page response (careSens.js lines 270-276):
`count` consecutive 9-byte records from the response's data field. -/
def pageRecords (data : List Nat) (count : Nat) : List RawRecord :=
  (List.range count).map (fun i => unpackRecord data (9 * i))

/-! ## Record decoder / mapper (careSens.js lines 332-427, 531-551) -/

/-- `FLAGS.CONTROL_SOLUTION` (careSens.js line 94). -/
def FLAG_CONTROL_SOLUTION : Nat := 0x01

/-- `FLAGS.LO` (careSens.js line 96). -/
def FLAG_LO : Nat := 0x04

/-- `FLAGS.HI` (careSens.js line 97). -/
def FLAG_HI : Nat := 0x08

/-- `FLAGS.KETONE` (careSens.js line 100). -/
def FLAG_KETONE : Nat := 0x40

/-- `hasFlag(flag, v)` (careSens.js lines 332-338): JS truthiness of
`flag.value & v`. -/
def hasFlag (flagValue v : Nat) : Bool := (Nat.land flagValue v) ≠ 0

/-- An out-of-range event tag attached by `annotate.annotateEvent`. -/
structure AnnRec where
  code : String
  value : String
  threshold : Nat
deriving DecidableEq, Repr

/-- A normalized output record as pushed onto `data.post_records`.  `value` is
a rational (the source uses JS numbers; only exact small quantities arise),
`deviceTime` keeps the raw record's clock fields, and `index` models the
transient `index` property set by `.set('index', index)` and removed by
`delete postRecord.index`. -/
structure PostRecord where
  type : String
  value : ℚ
  units : String
  deviceTime : RawRecord
  index : Option Nat
  annotations : List AnnRec
deriving DecidableEq, Repr

/-- `KETONE_VALUE_FACTOR` (careSens.js line 106). -/
def KETONE_VALUE_FACTOR : Nat := 10

/-- `KETONE_HI` (careSens.js line 107). -/
def KETONE_HI : ℚ := 8

/-- The glucose value/tag substitution at the top of the `buildBGRecords`
loop body (careSens.js lines 342-362): HIGH first, then LOW, else the raw
integer value. -/
def bgValueAnn (record : RawRecord) : ℚ × Option AnnRec :=
  if hasFlag FLAG_HI record.flags then
    (601, some ⟨"bg/out-of-range", "high", 600⟩)
  else if hasFlag FLAG_LO record.flags then
    (19, some ⟨"bg/out-of-range", "low", 20⟩)
  else ((record.value : ℚ), none)

/-- The record built by `cfg.builder.makeSMBG()...set('index', index)`,
annotated when applicable, after `.done()` and `delete postRecord.index`
(careSens.js lines 366-379). -/
def smbgRecord (index : Nat) (record : RawRecord) : PostRecord :=
  let va := bgValueAnn record
  let builder : PostRecord :=
    { type := "smbg", value := va.1, units := "mg/dL", deviceTime := record
      index := some index, annotations := va.2.toList }
  { builder with index := none }

/-- `buildBGRecords(data)` (careSens.js lines 340-385): iterate over
`data.records` with their fetch index, pushing one smbg record for every
record that is neither control-solution nor ketone. -/
def buildBGRecordsGo : Nat → List RawRecord → List PostRecord
  | _, [] => []
  | index, record :: rest =>
    (if ¬hasFlag FLAG_CONTROL_SOLUTION record.flags ∧ ¬hasFlag FLAG_KETONE record.flags
     then [smbgRecord index record] else [])
      ++ buildBGRecordsGo (index + 1) rest

/-- The ketone value/tag substitution inside `buildKetoneRecords`
(careSens.js lines 390-404): HIGH clamps to `KETONE_HI + 1/10`, otherwise the
raw integer value divided by `KETONE_VALUE_FACTOR`. -/
def ketoneValueAnn (record : RawRecord) : ℚ × Option AnnRec :=
  if hasFlag FLAG_HI record.flags then
    (KETONE_HI + 1 / (KETONE_VALUE_FACTOR : ℚ),
      some ⟨"ketone/out-of-range", "high", 8⟩)
  else ((record.value : ℚ) / (KETONE_VALUE_FACTOR : ℚ), none)

/-- The record built by `cfg.builder.makeBloodKetone()...`, after `.done()`
and `delete postRecord.index` (careSens.js lines 407-420). -/
def ketoneRecord (index : Nat) (record : RawRecord) : PostRecord :=
  let va := ketoneValueAnn record
  let builder : PostRecord :=
    { type := "bloodKetone", value := va.1, units := "mmol/L", deviceTime := record
      index := some index, annotations := va.2.toList }
  { builder with index := none }

/-- `buildKetoneRecords(data)` (careSens.js lines 387-427): iterate over
`data.records`, pushing one blood-ketone record for every record that has the
KETONE flag and not the control-solution flag. -/
def buildKetoneRecordsGo : Nat → List RawRecord → List PostRecord
  | _, [] => []
  | index, record :: rest =>
    (if hasFlag FLAG_KETONE record.flags ∧ ¬hasFlag FLAG_CONTROL_SOLUTION record.flags
     then [ketoneRecord index record] else [])
      ++ buildKetoneRecordsGo (index + 1) rest

/-- The `post_records` list produced by `processData` (careSens.js lines
531-551): `data.post_records = []`, then `buildBGRecords(data)` runs to
completion, then `buildKetoneRecords(data)` appends after it. -/
def postRecordsOf (records : List RawRecord) : List PostRecord :=
  buildBGRecordsGo 0 records ++ buildKetoneRecordsGo 0 records

/-- `processData` (careSens.js lines 531-551): build the post records and fail
with `Device has no records to upload` when none result. -/
def processData (records : List RawRecord) : Except String (List PostRecord) :=
  let post := postRecordsOf records
  if post.length = 0 then .error "Device has no records to upload"
  else .ok post

/-! ## Theorems -/

/-- C2: decoding a reassembled packet whose command field is the
glucose-result opcode succeeds regardless of the checksum field, while for
any other command a stored checksum that differs from the recomputed one
makes decoding fail with the checksum-verification error. -/
theorem glucoseResultChecksumExemption (bytes : List Nat) (fields : HeaderFields)
    (hhdr : extractHeader bytes = .ok fields) :
    ((unpackResponse bytes fields.size).command = CMD_GLUCOSE_RESULT →
      extractPacketIntoMessages bytes = .ok (unpackResponse bytes fields.size)) ∧
    ((unpackResponse bytes fields.size).command ≠ CMD_GLUCOSE_RESULT →
      recomputeChecksum bytes ≠ (unpackResponse bytes fields.size).crc →
      extractPacketIntoMessages bytes = .error "Checksum mismatch") := by
  constructor
  · intro hc
    simp [extractPacketIntoMessages, hhdr, hc]
  · intro hc hcrc
    simp [extractPacketIntoMessages, hhdr, hc, verifyChecksum, hcrc]

/-- Witness for C2: a concrete glucose-result packet whose two checksum bytes
were overwritten with `0xAB 0xCD` still decodes successfully, while a
read-time packet with the same corrupted checksum bytes is rejected. -/
theorem glucoseResultChecksumExemptionWitness :
    extractPacketIntoMessages
        [2, 0x69, 0x53, 0x50, 0x63, 16, 0x47, 0x4C, 0x55, 0x45,
         1, 2, 3, 4, 5, 6, 7, 8, 9, 0xAB, 0xCD, 3]
      = .ok ⟨CMD_GLUCOSE_RESULT, [1, 2, 3, 4, 5, 6, 7, 8, 9], 0xABCD⟩ ∧
    extractPacketIntoMessages
        [2, 0x69, 0x53, 0x50, 0x63, 7, 0x52, 0x54, 0x49, 0x4D, 0xAB, 0xCD, 3]
      = .error "Checksum mismatch" := by
  constructor
  · have h := (glucoseResultChecksumExemption
      [2, 0x69, 0x53, 0x50, 0x63, 16, 0x47, 0x4C, 0x55, 0x45,
       1, 2, 3, 4, 5, 6, 7, 8, 9, 0xAB, 0xCD, 3]
      ⟨[0x69, 0x53, 0x50, 0x63], 16⟩ (by decide)).1 (by decide)
    rw [h]; decide
  · exact (glucoseResultChecksumExemption
      [2, 0x69, 0x53, 0x50, 0x63, 7, 0x52, 0x54, 0x49, 0x4D, 0xAB, 0xCD, 3]
      ⟨[0x69, 0x53, 0x50, 0x63], 7⟩ (by decide)).2 (by decide) (by decide)

/-- C7: the out-of-range substitution in `buildBGRecords` is first-match-wins
in the order HIGH then LOW: with the HI flag set (whether or not LO is also
set) the value becomes the sentinel 601 with an out-of-range-high tag at
threshold 600; otherwise with LO set it becomes 19 with an out-of-range-low
tag at threshold 20; otherwise the raw integer value is kept. -/
theorem bgOutOfRangePrecedence (record : RawRecord)
    (hc : hasFlag FLAG_CONTROL_SOLUTION record.flags = false)
    (hk : hasFlag FLAG_KETONE record.flags = false) :
    (hasFlag FLAG_HI record.flags = true →
      buildBGRecordsGo 0 [record]
        = [⟨"smbg", 601, "mg/dL", record, none, [⟨"bg/out-of-range", "high", 600⟩]⟩]) ∧
    (hasFlag FLAG_HI record.flags = false → hasFlag FLAG_LO record.flags = true →
      buildBGRecordsGo 0 [record]
        = [⟨"smbg", 19, "mg/dL", record, none, [⟨"bg/out-of-range", "low", 20⟩]⟩]) ∧
    (hasFlag FLAG_HI record.flags = false → hasFlag FLAG_LO record.flags = false →
      buildBGRecordsGo 0 [record]
        = [⟨"smbg", (record.value : ℚ), "mg/dL", record, none, []⟩]) := by
  refine ⟨fun hhi => ?_, fun hhi hlo => ?_, fun hhi hlo => ?_⟩ <;>
    simp [buildBGRecordsGo, smbgRecord, bgValueAnn, hc, hk, hhi]
  · simp [*]
  · simp [*]

/-- Witness for C7: a malformed record with both the HI (0x08) and LO (0x04)
bits set resolves to the HIGH substitution. -/
theorem bgOutOfRangePrecedenceWitness :
    buildBGRecordsGo 0 [⟨2021, 1, 2, 3, 4, 5, 0x0C, 350⟩]
      = [⟨"smbg", 601, "mg/dL", ⟨2021, 1, 2, 3, 4, 5, 0x0C, 350⟩, none,
          [⟨"bg/out-of-range", "high", 600⟩]⟩] :=
  (bgOutOfRangePrecedence ⟨2021, 1, 2, 3, 4, 5, 0x0C, 350⟩
    (by decide) (by decide)).1 (by decide)

/-- Length of the glucose pass: one output record per input record that is
neither control-solution nor ketone. -/
theorem buildBGRecordsGo_length (records : List RawRecord) : ∀ i,
    (buildBGRecordsGo i records).length
      = records.countP
          (fun r => !hasFlag FLAG_CONTROL_SOLUTION r.flags && !hasFlag FLAG_KETONE r.flags) := by
  induction records with
  | nil => intro i; simp [buildBGRecordsGo]
  | cons r rs ih =>
    intro i
    rw [buildBGRecordsGo, List.countP_cons]
    rcases h1 : hasFlag FLAG_CONTROL_SOLUTION r.flags <;>
      rcases h2 : hasFlag FLAG_KETONE r.flags <;>
      simp [h1, h2, ih (i + 1), Nat.add_comm]

/-- Length of the ketone pass: one output record per input record that has
the ketone flag and not the control-solution flag. -/
theorem buildKetoneRecordsGo_length (records : List RawRecord) : ∀ i,
    (buildKetoneRecordsGo i records).length
      = records.countP
          (fun r => hasFlag FLAG_KETONE r.flags && !hasFlag FLAG_CONTROL_SOLUTION r.flags) := by
  induction records with
  | nil => intro i; simp [buildKetoneRecordsGo]
  | cons r rs ih =>
    intro i
    rw [buildKetoneRecordsGo, List.countP_cons]
    rcases h1 : hasFlag FLAG_KETONE r.flags <;>
      rcases h2 : hasFlag FLAG_CONTROL_SOLUTION r.flags <;>
      simp [h1, h2, ih (i + 1), Nat.add_comm]

/-- C8: processing N raw records of which K carry the control-solution flag
yields exactly N − K normalized records: each non-control record yields one
output record (ketone or glucose according to its KETONE flag) and each
control-solution record yields none. -/
theorem controlSolutionFiltering (records : List RawRecord) :
    (postRecordsOf records).length
      = records.length
        - records.countP (fun r => hasFlag FLAG_CONTROL_SOLUTION r.flags) := by
  have key : (postRecordsOf records).length
      + records.countP (fun r => hasFlag FLAG_CONTROL_SOLUTION r.flags)
      = records.length := by
    rw [postRecordsOf, List.length_append,
      buildBGRecordsGo_length records 0, buildKetoneRecordsGo_length records 0]
    induction records with
    | nil => simp
    | cons r rs ih =>
      rw [List.countP_cons, List.countP_cons, List.countP_cons, List.length_cons]
      rcases h1 : hasFlag FLAG_CONTROL_SOLUTION r.flags <;>
        rcases h2 : hasFlag FLAG_KETONE r.flags <;>
        simp [h1, h2] <;> omega
  omega

/-- Every record the glucose pass emits has its transient index deleted. -/
theorem buildBGRecordsGo_index_none (records : List RawRecord) : ∀ i r,
    r ∈ buildBGRecordsGo i records → r.index = none := by
  induction records with
  | nil => intro i r h; simp [buildBGRecordsGo] at h
  | cons rec rs ih =>
    intro i r h
    rw [buildBGRecordsGo] at h
    rcases List.mem_append.mp h with h | h
    · split at h
      · simp at h
        simp [h, smbgRecord]
      · simp at h
    · exact ih (i + 1) r h

/-- Every record the ketone pass emits has its transient index deleted. -/
theorem buildKetoneRecordsGo_index_none (records : List RawRecord) : ∀ i r,
    r ∈ buildKetoneRecordsGo i records → r.index = none := by
  induction records with
  | nil => intro i r h; simp [buildKetoneRecordsGo] at h
  | cons rec rs ih =>
    intro i r h
    rw [buildKetoneRecordsGo] at h
    rcases List.mem_append.mp h with h | h
    · split at h
      · simp at h
        simp [h, ketoneRecord]
      · simp at h
    · exact ih (i + 1) r h

/-- C9: no record in the final `post_records` output carries the transient
fetch-order index: `delete postRecord.index` runs before every push, so the
index field is absent (`none`) on every output record. -/
theorem indexFieldRemoved (records : List RawRecord) (r : PostRecord)
    (hr : r ∈ postRecordsOf records) : r.index = none := by
  rcases List.mem_append.mp hr with h | h
  · exact buildBGRecordsGo_index_none records 0 r h
  · exact buildKetoneRecordsGo_index_none records 0 r h

/-- Witness for C9: the record produced for a concrete HI-flagged reading has
no index field. -/
theorem indexFieldRemovedWitness :
    (⟨"smbg", 601, "mg/dL", ⟨2021, 1, 2, 3, 4, 5, 0x0C, 350⟩, none,
      [⟨"bg/out-of-range", "high", 600⟩]⟩ : PostRecord).index = none :=
  indexFieldRemoved [⟨2021, 1, 2, 3, 4, 5, 0x0C, 350⟩]
    ⟨"smbg", 601, "mg/dL", ⟨2021, 1, 2, 3, 4, 5, 0x0C, 350⟩, none,
      [⟨"bg/out-of-range", "high", 600⟩]⟩ (by decide)

/-- The glucose pass in filter/map form over index-enumerated records. -/
theorem buildBGRecordsGo_eq_filterMap (records : List RawRecord) : ∀ i,
    buildBGRecordsGo i records
      = ((List.enumFrom i records).filter
          (fun p => !hasFlag FLAG_CONTROL_SOLUTION p.2.flags && !hasFlag FLAG_KETONE p.2.flags)).map
          (fun p => smbgRecord p.1 p.2) := by
  induction records with
  | nil => intro i; simp [buildBGRecordsGo]
  | cons r rs ih =>
    intro i
    rw [buildBGRecordsGo, List.enumFrom]
    rcases h1 : hasFlag FLAG_CONTROL_SOLUTION r.flags <;>
      rcases h2 : hasFlag FLAG_KETONE r.flags <;>
      simp [List.filter_cons, h1, h2, ih (i + 1)]

/-- The ketone pass in filter/map form over index-enumerated records. -/
theorem buildKetoneRecordsGo_eq_filterMap (records : List RawRecord) : ∀ i,
    buildKetoneRecordsGo i records
      = ((List.enumFrom i records).filter
          (fun p => hasFlag FLAG_KETONE p.2.flags && !hasFlag FLAG_CONTROL_SOLUTION p.2.flags)).map
          (fun p => ketoneRecord p.1 p.2) := by
  induction records with
  | nil => intro i; simp [buildKetoneRecordsGo]
  | cons r rs ih =>
    intro i
    rw [buildKetoneRecordsGo, List.enumFrom]
    rcases h1 : hasFlag FLAG_KETONE r.flags <;>
      rcases h2 : hasFlag FLAG_CONTROL_SOLUTION r.flags <;>
      simp [List.filter_cons, h1, h2, ih (i + 1)]

/-- C10: the processing stage emits its output partitioned by record type,
not in overall fetch order: all glucose (non-ketone, non-control) records
first, in fetch order, followed by all ketone records, in fetch order,
because `buildBGRecords` runs to completion before `buildKetoneRecords`
appends anything. -/
theorem outputPartitionedByType (records : List RawRecord) :
    postRecordsOf records
      = ((List.enumFrom 0 records).filter
          (fun p => !hasFlag FLAG_CONTROL_SOLUTION p.2.flags && !hasFlag FLAG_KETONE p.2.flags)).map
          (fun p => smbgRecord p.1 p.2)
        ++ ((List.enumFrom 0 records).filter
          (fun p => hasFlag FLAG_KETONE p.2.flags && !hasFlag FLAG_CONTROL_SOLUTION p.2.flags)).map
          (fun p => ketoneRecord p.1 p.2) := by
  rw [postRecordsOf, buildBGRecordsGo_eq_filterMap records 0,
    buildKetoneRecordsGo_eq_filterMap records 0]

/-- C4 counterexample: with a transport that returns an empty result on every
receive, `ping` performs 5 probe attempts in total (the initial attempt plus
4 granted retries, since `retries <= 3` is checked before incrementing), not
the 4 attempts the claim states. -/
theorem pingFourAttemptsCounterexample :
    (ping (fun _ => [])).sends = 5 ∧ ¬(ping (fun _ => [])).sends = 4 := by
  constructor <;> simp [ping, pingGo]

/-- C4 (amended): `ping` sends a fixed 2-byte probe; against a transport that
always returns empty results it performs 5 probe attempts in total (1 initial
+ 4 retries) and then fails with the terminal `Device not responding.` error
(with `this.retries` left at 4); on any non-empty response it succeeds after
that single probe and resets the retry counter to zero. -/
theorem pingRetryExhaustion :
    pingProbe.length = 2 ∧
    ping (fun _ => []) = ⟨5, 4, .error "Device not responding."⟩ ∧
    (∀ (responses : Nat → List Nat) (callIdx retries : Nat),
      (responses callIdx).length ≠ 0 →
      pingGo responses callIdx retries = ⟨1, 0, .ok ()⟩) := by
  refine ⟨rfl, by simp [ping, pingGo], ?_⟩
  intro responses callIdx retries h
  rw [pingGo]
  simp [h]

/-- Witness for C4 (amended): a concrete non-empty response makes `ping`
succeed with one send and the retry counter reset to zero. -/
theorem pingRetryExhaustionWitness :
    pingGo (fun _ => [0x11, 0x22]) 0 3 = ⟨1, 0, .ok ()⟩ :=
  pingRetryExhaustion.2.2 (fun _ => [0x11, 0x22]) 0 3 (by decide)

/-- Unfolding of the pagination loop below its lower bound: past the record
count, no request is issued. -/
theorem getRecordsGo_stop (device : Nat → Nat → List Nat) (n s : Nat)
    (h : n < s) : getRecordsGo device n s = ([], []) := by
  rw [getRecordsGo]
  simp [Nat.not_le.mpr h]

/-- Unfolding of the pagination loop while in range. -/
theorem getRecordsGo_step (device : Nat → Nat → List Nat) (n s : Nat)
    (h : s ≤ n) :
    getRecordsGo device n s
      = ((s, pageCount n s) :: (getRecordsGo device n (s + 27)).1,
         pageRecords (device s (pageCount n s)) (pageCount n s)
           ++ (getRecordsGo device n (s + 27)).2) := by
  rw [getRecordsGo]
  simp [h, pageCount, pageRecords]

/-- The pagination loop returns one raw record per requested record. -/
theorem getRecordsGo_length (device : Nat → Nat → List Nat) (n : Nat) :
    ∀ s, (getRecordsGo device n s).2.length = (if s ≤ n then n + 1 - s else 0) := by
  intro s
  induction s using getRecordsGo.induct device n with
  | case1 s hle ih =>
    rw [getRecordsGo_step device n s hle]
    simp only [List.length_append, pageRecords, List.length_map, List.length_range, ih,
      pageCount]
    rw [if_pos hle]
    split <;> split <;> omega
  | case2 s hgt =>
    rw [getRecordsGo_stop device n s (by omega)]
    rw [if_neg hgt]
    rfl

/-- The start indices issued by the pagination loop are
`s, s + 27, s + 54, …`. -/
theorem getRecordsGo_starts (device : Nat → Nat → List Nat) (n : Nat) :
    ∀ s, ((getRecordsGo device n s).1.map Prod.fst)
      = (List.range (getRecordsGo device n s).1.length).map (fun i => s + 27 * i) := by
  intro s
  induction s using getRecordsGo.induct device n with
  | case1 s hle ih =>
    rw [getRecordsGo_step device n s hle]
    simp only [List.map_cons, List.length_cons, ih, List.range_succ_eq_map,
      List.map_map, List.cons.injEq]
    refine ⟨by omega, List.map_congr_left (fun i _ => ?_)⟩
    simp only [Function.comp]
    omega
  | case2 s hgt =>
    rw [getRecordsGo_stop device n s (by omega)]
    simp

/-- Every page but the last requests exactly 27 records. -/
theorem getRecordsGo_full_pages (device : Nat → Nat → List Nat) (n : Nat) :
    ∀ s i, i + 1 < (getRecordsGo device n s).1.length →
      ((getRecordsGo device n s).1.getD i (0, 0)).2 = 27 := by
  intro s
  induction s using getRecordsGo.induct device n with
  | case1 s hle ih =>
    intro i hi
    rw [getRecordsGo_step device n s hle] at hi ⊢
    match i with
    | 0 =>
      simp only [List.getD_cons_zero]
      have hnext : (getRecordsGo device n (s + 27)).1 ≠ [] := by
        intro hemp
        simp [List.length_cons, hemp] at hi
      have hrange : s + 27 ≤ n := by
        by_contra hgt
        rw [getRecordsGo_stop device n (s + 27) (by omega)] at hnext
        exact hnext rfl
      rw [pageCount]
      rw [if_pos (by omega)]
    | i + 1 =>
      simp only [List.getD_cons_succ]
      exact ih i (by simpa using hi)
  | case2 s hgt =>
    intro i hi
    rw [getRecordsGo_stop device n s (by omega)] at hi
    simp at hi

/-- Every issued page request asks for between 1 and 27 records. -/
theorem getRecordsGo_count_bounds (device : Nat → Nat → List Nat) (n : Nat) :
    ∀ s q, q ∈ (getRecordsGo device n s).1 → 1 ≤ q.2 ∧ q.2 ≤ 27 := by
  intro s
  induction s using getRecordsGo.induct device n with
  | case1 s hle ih =>
    intro q hq
    rw [getRecordsGo_step device n s hle] at hq
    rcases List.mem_cons.mp hq with h | h
    · subst h
      rw [pageCount]
      split <;> omega
    · exact ih q h
  | case2 s hgt =>
    intro q hq
    rw [getRecordsGo_stop device n s (by omega)] at hq
    simp at hq

/-- The records returned are exactly the 9-byte decodes of each page response,
concatenated in request order. -/
theorem getRecordsGo_bind (device : Nat → Nat → List Nat) (n : Nat) :
    ∀ s, (getRecordsGo device n s).2
      = (getRecordsGo device n s).1.flatMap
          (fun q => pageRecords (device q.1 q.2) q.2) := by
  intro s
  induction s using getRecordsGo.induct device n with
  | case1 s hle ih =>
    rw [getRecordsGo_step device n s hle]
    simp [ih]
  | case2 s hgt =>
    rw [getRecordsGo_stop device n s (by omega)]
    simp

/-- C6: for every record count n, `getRecords` issues paginated requests with
start indices 1, 28, 55, …, each page requesting exactly 27 records except a
possibly smaller (1–27) final page; it decodes 9-byte fixed-width records
from each page response, and returns exactly n records in request order. -/
theorem getRecordsPagination (device : Nat → Nat → List Nat) (n : Nat) :
    (getRecords device n).2.length = n ∧
    ((getRecords device n).1.map Prod.fst
      = (List.range (getRecords device n).1.length).map (fun i => 1 + 27 * i)) ∧
    (∀ i, i + 1 < (getRecords device n).1.length →
      ((getRecords device n).1.getD i (0, 0)).2 = 27) ∧
    (∀ q ∈ (getRecords device n).1, 1 ≤ q.2 ∧ q.2 ≤ 27) ∧
    ((getRecords device n).2
      = (getRecords device n).1.flatMap (fun q => pageRecords (device q.1 q.2) q.2)) := by
  refine ⟨?_, getRecordsGo_starts device n 1, getRecordsGo_full_pages device n 1,
    getRecordsGo_count_bounds device n 1, getRecordsGo_bind device n 1⟩
  have h := getRecordsGo_length device n 1
  rw [getRecords]
  rw [h]
  split <;> omega

/-- A list of bytes below 256 is unchanged by the `Uint8Array` store mask. -/
theorem map_mod256_eq_self (l : List Nat) (h : ∀ b ∈ l, b < 256) :
    l.map (fun b => b % 256) = l := by
  induction l with
  | nil => rfl
  | cons a t ih =>
    rw [List.map_cons, Nat.mod_eq_of_lt (h a (List.mem_cons_self a t)),
      ih (fun b hb => h b (List.mem_cons_of_mem a hb))]

/-- The checksum engine always produces a 16-bit value. -/
theorem calcCRC_A_lt (buffer : List Nat) (length : Nat) :
    calcCRC_A buffer length < 65536 := by
  rw [calcCRC_A]
  suffices h : ∀ (l : List Nat) (init : Nat), init < 65536 →
      l.foldl (fun crc i =>
        let ch0 := buffer.getD i 0
        let ch1 := (Nat.xor ch0 (crc % 256)) % 256
        let ch2 := (Nat.xor ch1 (ch1 * 16)) % 256
        (Nat.xor (Nat.xor (Nat.xor (crc / 256) (ch2 * 256)) (ch2 * 8)) (ch2 / 16)) % 65536)
        init < 65536 from h _ _ (by norm_num)
  intro l
  induction l with
  | nil => intro init hinit; simpa using hinit
  | cons a t ih =>
    intro init hinit
    rw [List.foldl_cons]
    exact ih _ (Nat.mod_lt _ (by norm_num))

/-- Reading past the 6 fixed header bytes and a 4-byte command accesses the
remainder of the packet. -/
theorem getD_pre10 (a1 a2 a3 a4 a5 a6 : Nat) (cmd mid : List Nat)
    (h : cmd.length = 4) (k : Nat) :
    (a1 :: a2 :: a3 :: a4 :: a5 :: a6 :: (cmd ++ mid)).getD (10 + k) 0 = mid.getD k 0 := by
  have h1 : a1 :: a2 :: a3 :: a4 :: a5 :: a6 :: (cmd ++ mid)
      = (a1 :: a2 :: a3 :: a4 :: a5 :: a6 :: cmd) ++ mid := by simp
  have h2 : (a1 :: a2 :: a3 :: a4 :: a5 :: a6 :: cmd).length = 10 := by simp [h]
  rw [h1, List.getD_append_right _ _ _ _ (by omega), h2]
  congr 1
  omega

/-- `getD` at an offset past a prefix reads from the suffix. -/
theorem getD_after (pre rest : List Nat) (j : Nat) :
    (pre ++ rest).getD (pre.length + j) 0 = rest.getD j 0 := by
  rw [List.getD_append_right _ _ _ _ (by omega)]
  congr 1
  omega

/-- `take` past a prefix keeps the prefix and takes from the suffix. -/
theorem take_append_len (l1 l2 : List Nat) (i : Nat) :
    (l1 ++ l2).take (l1.length + i) = l1 ++ l2.take i := by
  rw [List.take_append_eq_append_take, List.take_of_length_le (by omega),
    Nat.add_sub_cancel_left]

/-- `drop` past a prefix drops within the suffix. -/
theorem drop_append_len (l1 l2 : List Nat) (i : Nat) :
    (l1 ++ l2).drop (l1.length + i) = l2.drop i := by
  rw [List.drop_append_eq_append_drop, List.drop_of_length_le (by omega),
    Nat.add_sub_cancel_left, List.nil_append]

/-- C3: for every 4-byte command token (non-zero bytes) and payload within
protocol bounds (at most 248 bytes, each below 256), decoding the packet
built by `buildPacket` (with the leading report-length byte stripped) yields
back exactly the command token and payload bytes, and the packet's stored
checksum field verifies successfully against `verifyChecksum`. -/
theorem buildPacketRoundTrip (command payload : List Nat)
    (hclen : command.length = 4)
    (hcb : ∀ b ∈ command, b < 256 ∧ b ≠ 0)
    (hplen : payload.length ≤ 248)
    (hpb : ∀ b ∈ payload, b < 256) :
    extractPacketIntoMessages ((buildPacket command payload).drop 1)
      = .ok ⟨command, payload,
          extractBEShort ((buildPacket command payload).drop 1) (10 + payload.length)⟩ ∧
    verifyChecksum ((buildPacket command payload).drop 1)
        (extractBEShort ((buildPacket command payload).drop 1) (10 + payload.length))
      = .ok () := by
  have hpackZ : packZ command 4 = command := by
    rw [packZ, map_mod256_eq_self command (fun b hb => (hcb b hb).1),
      List.take_of_length_le (by omega), hclen]
    simp
  have hmap : payload.map (fun b => b % 256) = payload := map_mod256_eq_self payload hpb
  have hdl : (7 + payload.length) % 256 = 7 + payload.length := Nat.mod_eq_of_lt (by omega)
  have hcrclt : packetCRC command payload < 65536 := calcCRC_A_lt _ _
  have hhi : packetCRC command payload / 256 % 256 = packetCRC command payload / 256 :=
    Nat.mod_eq_of_lt (Nat.div_lt_of_lt_mul (by omega))
  have hpre : packetPreCRC command payload
      = 2 :: 105 :: 83 :: 80 :: 99 :: (7 + payload.length) :: (command ++ (payload ++ [3])) := by
    rw [packetPreCRC, hpackZ, hmap, hdl]
    simp [ASCII_STX, ASCII_ETX, COMMAND_HEADER]
  have hdropLast : (packetPreCRC command payload).dropLast
      = 2 :: 105 :: 83 :: 80 :: 99 :: (7 + payload.length) :: (command ++ payload) := by
    have h2 : packetPreCRC command payload
        = (2 :: 105 :: 83 :: 80 :: 99 :: (7 + payload.length) :: (command ++ payload)) ++ [3] := by
      rw [hpre]; simp
    rw [h2, List.dropLast_concat]
  have hpkt : (buildPacket command payload).drop 1
      = 2 :: 105 :: 83 :: 80 :: 99 :: (7 + payload.length) ::
          (command ++ (payload ++
            [packetCRC command payload / 256, packetCRC command payload % 256, 3])) := by
    rw [buildPacket, hdropLast]
    simp [hhi, ASCII_ETX]
  have hhdr : extractHeader ((buildPacket command payload).drop 1)
      = .ok ⟨COMMAND_HEADER, 7 + payload.length⟩ := by
    rw [hpkt]
    simp [extractHeader, unpackZ, COMMAND_HEADER]
  have hcmd : unpackZ ((buildPacket command payload).drop 1) 6 4 = command := by
    rw [hpkt, unpackZ]
    have hd6 : ((2 : Nat) :: 105 :: 83 :: 80 :: 99 :: (7 + payload.length) ::
        (command ++ (payload ++
          [packetCRC command payload / 256, packetCRC command payload % 256, 3]))).drop 6
        = command ++ (payload ++
            [packetCRC command payload / 256, packetCRC command payload % 256, 3]) := by
      simp
    rw [hd6, List.take_left' hclen,
      List.takeWhile_eq_self_iff.mpr (fun x hx => by simpa using (hcb x hx).2)]
  have hdata : (((buildPacket command payload).drop 1).drop 10).take payload.length
      = payload := by
    rw [hpkt]
    have hd10 : ((2 : Nat) :: 105 :: 83 :: 80 :: 99 :: (7 + payload.length) ::
        (command ++ (payload ++
          [packetCRC command payload / 256, packetCRC command payload % 256, 3]))).drop 10
        = (command ++ (payload ++
            [packetCRC command payload / 256, packetCRC command payload % 256, 3])).drop 4 := by
      simp
    rw [hd10, List.drop_left' hclen]
    exact List.take_left payload _
  have hbe : extractBEShort ((buildPacket command payload).drop 1) (10 + payload.length)
      = packetCRC command payload := by
    rw [extractBEShort, hpkt]
    rw [getD_pre10 _ _ _ _ _ _ _ _ hclen payload.length]
    rw [show 10 + payload.length + 1 = 10 + (payload.length + 1) from by omega]
    rw [getD_pre10 _ _ _ _ _ _ _ _ hclen (payload.length + 1)]
    rw [show payload.length = payload.length + 0 from by omega, getD_after,
      show payload.length + 0 + 1 = payload.length + 1 from by omega, getD_after]
    simp only [List.getD_cons_zero, List.getD_cons_succ]
    omega
  have hsplice : splicedBody ((buildPacket command payload).drop 1)
      = packetPreCRC command payload := by
    rw [splicedBody, hpkt, hpre]
    have hchain : (2 : Nat) :: 105 :: 83 :: 80 :: 99 :: (7 + payload.length) ::
        (command ++ (payload ++
          [packetCRC command payload / 256, packetCRC command payload % 256, 3]))
        = ((2 : Nat) :: 105 :: 83 :: 80 :: 99 :: (7 + payload.length) :: command)
          ++ (payload ++
            [packetCRC command payload / 256, packetCRC command payload % 256, 3]) := by
      simp
    have hp10 : ((2 : Nat) :: 105 :: 83 :: 80 :: 99 :: (7 + payload.length) :: command).length
        = 10 := by simp [hclen]
    rw [hchain]
    rw [List.length_append, hp10]
    have hlen2 : (payload ++
        [packetCRC command payload / 256, packetCRC command payload % 256, 3]).length
        = payload.length + 3 := by simp
    rw [hlen2]
    rw [show 10 + (payload.length + 3) - 3
        = ((2 : Nat) :: 105 :: 83 :: 80 :: 99 :: (7 + payload.length) :: command).length
          + payload.length from by omega]
    rw [take_append_len]
    rw [show 10 + (payload.length + 3) - 1
        = ((2 : Nat) :: 105 :: 83 :: 80 :: 99 :: (7 + payload.length) :: command).length
          + (payload.length + 2) from by omega]
    rw [drop_append_len]
    rw [show payload.length + 2 = payload.length + 2 from rfl]
    rw [show (payload ++
        [packetCRC command payload / 256, packetCRC command payload % 256, 3]).drop
          (payload.length + 2)
        = [packetCRC command payload / 256, packetCRC command payload % 256, 3].drop 2
        from drop_append_len payload _ 2]
    rw [List.take_left]
    simp
  have hrec : recomputeChecksum ((buildPacket command payload).drop 1)
      = packetCRC command payload := by
    rw [recomputeChecksum, hsplice, packetCRC]
    congr 1
    rw [hpre]
    simp [hclen]
    omega
  have hver : verifyChecksum ((buildPacket command payload).drop 1)
      (extractBEShort ((buildPacket command payload).drop 1) (10 + payload.length))
      = .ok () := by
    rw [verifyChecksum, hbe, hrec]
    simp
  have hresp : unpackResponse ((buildPacket command payload).drop 1) (7 + payload.length)
      = ⟨command, payload,
          extractBEShort ((buildPacket command payload).drop 1) (10 + payload.length)⟩ := by
    rw [unpackResponse, Nat.add_sub_cancel_left, hcmd, hdata]
  refine ⟨?_, hver⟩
  rw [extractPacketIntoMessages, hhdr]
  simp only [hresp]
  by_cases hg : command = CMD_GLUCOSE_RESULT
  · simp [hg]
  · have hver2 : verifyChecksum ((buildPacket command payload).tail)
        (extractBEShort ((buildPacket command payload).tail) (10 + payload.length))
        = .ok () := by
      simp only [← List.drop_one]
      exact hver
    simp [hg, hver2]

/-- Witness for C3: round trip of a concrete read-time command with payload
`[10, 20, 30]`. -/
theorem buildPacketRoundTripWitness :
    extractPacketIntoMessages ((buildPacket CMD_READ_TIME [10, 20, 30]).drop 1)
      = .ok ⟨CMD_READ_TIME, [10, 20, 30],
          extractBEShort ((buildPacket CMD_READ_TIME [10, 20, 30]).drop 1)
            (10 + ([10, 20, 30] : List Nat).length)⟩ ∧
    verifyChecksum ((buildPacket CMD_READ_TIME [10, 20, 30]).drop 1)
        (extractBEShort ((buildPacket CMD_READ_TIME [10, 20, 30]).drop 1)
          (10 + ([10, 20, 30] : List Nat).length)) = .ok () :=
  buildPacketRoundTrip CMD_READ_TIME [10, 20, 30] (by decide) (by decide)
    (by decide) (by decide)

/-- A report whose payload has no STX while none was seen before leaves the
loop state unchanged (careSens.js lines 200-204: the report is dropped). -/
theorem step_noSTX (s : LoopState) (p : List Nat) (hp : p.length ≤ 255)
    (h1 : s.foundSTX = false) (h2 : p.contains ASCII_STX = false) :
    commandResponseStep s (mkReport p) = .ok s := by
  have h2m : ASCII_STX ∉ p := by simpa using h2
  rw [commandResponseStep, mkReport]
  simp [Nat.mod_eq_of_lt (by omega : p.length < 256), List.take_length, h1, h2m]

/-- A report processed after the STX is seen, when the buffer does not land
exactly on the header size: the payload is appended and the completion test
uses the current `packetSize`. -/
theorem step_app (s : LoopState) (p : List Nat) (hp : p.length ≤ 255)
    (hstx : (s.foundSTX || p.contains ASCII_STX) = true)
    (hne6 : (s.raw ++ p).length ≠ HEADER_SIZE) :
    commandResponseStep s (mkReport p)
      = .ok ⟨s.raw ++ p, true,
          s.foundETX || (p.contains ASCII_ETX
            && decide (s.packetSize + HEADER_SIZE ≤ (s.raw ++ p).length)),
          s.packetSize⟩ := by
  rw [commandResponseStep, mkReport]
  simp only [List.length_cons, List.getD_cons_zero, List.drop_succ_cons, List.drop_zero,
    Nat.mod_eq_of_lt (show p.length < 256 by omega), List.take_length]
  rw [if_pos (by omega)]
  simp only [hstx]
  rw [if_pos trivial, if_neg hne6]

/-- A report that makes the buffer length exactly `HEADER_SIZE`: the header
is decoded and `packetSize` updated before the completion test. -/
theorem step_hdr (s : LoopState) (p : List Nat) (fields : HeaderFields) (hp : p.length ≤ 255)
    (hstx : (s.foundSTX || p.contains ASCII_STX) = true)
    (h6 : (s.raw ++ p).length = HEADER_SIZE)
    (hhdr : extractHeader (s.raw ++ p) = .ok fields) :
    commandResponseStep s (mkReport p)
      = .ok ⟨s.raw ++ p, true,
          s.foundETX || (p.contains ASCII_ETX
            && decide (fields.size + HEADER_SIZE ≤ (s.raw ++ p).length)),
          fields.size⟩ := by
  rw [commandResponseStep, mkReport]
  simp only [List.length_cons, List.getD_cons_zero, List.drop_succ_cons, List.drop_zero,
    Nat.mod_eq_of_lt (show p.length < 256 by omega), List.take_length]
  rw [if_pos (by omega)]
  simp only [hstx]
  rw [if_pos trivial, if_pos h6, hhdr]


/-- The framed packet spelled out byte by byte. -/
theorem framedPacket_eq (rest : List Nat) :
    framedPacket rest = 2 :: 105 :: 83 :: 80 :: 99 :: rest.length :: rest := by
  simp [framedPacket, ASCII_STX, COMMAND_HEADER]

/-- Total length of a framed packet: header size plus declared size. -/
theorem framedPacket_length (rest : List Nat) :
    (framedPacket rest).length = 6 + rest.length := by
  rw [framedPacket_eq]
  simp
  omega

/-- The last byte of a framed packet is the last byte of its body. -/
theorem framedPacket_getLast? (rest : List Nat) (h : 1 ≤ rest.length) :
    (framedPacket rest).getLast? = rest.getLast? := by
  rw [framedPacket_eq]
  rcases rest with _ | ⟨a, t⟩
  · simp at h
  · simp [List.getLast?_cons_cons]

/-- The last element of a list is a member of it. -/
theorem mem_of_getLast?_eq (l : List Nat) (a : Nat) (h : l.getLast? = some a) :
    a ∈ l := by
  have hne : l ≠ [] := by rintro rfl; simp at h
  rw [List.getLast?_eq_getLast l hne] at h
  have : a = l.getLast hne := by injection h with h2; omega
  rw [this]
  exact List.getLast_mem hne

/-- Once `foundETX` is set the loop exits without reading further reports. -/
theorem runReports_done (s : LoopState) (hs : s.foundETX = true) :
    ∀ reports, runReports s reports = .ok s := by
  intro reports
  cases reports with
  | nil => rfl
  | cons r rs => rw [runReports]; simp [hs]

/-- The completion test fails while the buffer is shorter than the expected
total length, regardless of any ETX bytes seen. -/
theorem etx_false_of_short (p : List Nat) (n m : Nat) (h : ¬(n ≤ m)) :
    ((false : Bool) || (p.contains ASCII_ETX && decide (n ≤ m))) = false := by
  simp [h]

/-- Invariant of the reassembly loop: starting from a proper prefix `c` of a
well-formed framed packet, with the declared size learnt exactly when the
buffer has passed the 6-byte mark, feeding the remaining fragments completes
reassembly with the full packet (provided some fragment boundary lands
exactly on the 6-byte header length). -/
theorem reassemblyInvariant (rest : List Nat)
    (hrest : 1 ≤ rest.length) (hlast : rest.getLast? = some ASCII_ETX) :
    ∀ (pieces : List (List Nat)) (c : List Nat),
    c ++ pieces.flatten = framedPacket rest →
    c ≠ framedPacket rest →
    (∀ p ∈ pieces, p.length ≤ 255) →
    (6 ≤ c.length ∨ ∃ pre post, pieces = pre ++ post ∧ c.length + pre.flatten.length = 6) →
    runReports ⟨c, !c.isEmpty, false, if 6 ≤ c.length then rest.length else 64⟩
        (pieces.map mkReport)
      = .ok ⟨framedPacket rest, true, true, rest.length⟩ := by
  intro pieces
  induction pieces with
  | nil =>
    intro c hfull hne _ _
    simp at hfull
    exact absurd hfull hne
  | cons p ps ih =>
    intro c hfull hne hplen hsix
    have hp : p.length ≤ 255 := hplen p (List.mem_cons_self p ps)
    have hplen2 : ∀ q ∈ ps, q.length ≤ 255 := fun q hq => hplen q (List.mem_cons_of_mem p hq)
    have hfull2 : (c ++ p) ++ ps.flatten = framedPacket rest := by
      rw [← hfull, List.flatten_cons, List.append_assoc]
    simp only [List.map_cons]
    rw [runReports]
    simp only [if_neg (show ¬((false : Bool) = true) by simp)]
    by_cases hstx : ((!c.isEmpty) || p.contains ASCII_STX) = true
    · -- the STX has been seen: this report's bytes are appended
      have hcpne : c ++ p ≠ [] := by
        intro hq
        obtain ⟨hc2, hp2⟩ := List.append_eq_nil.mp hq
        rw [hc2, hp2] at hstx
        simp at hstx
      have hfstx : (!(c ++ p).isEmpty) = true := by
        rcases hq : c ++ p with _ | ⟨a, t⟩
        · exact absurd hq hcpne
        · rfl
      by_cases hfin : c ++ p = framedPacket rest
      · -- this report completes the packet
        have hclen6 : 6 ≤ c.length := by
          by_contra hlt
          push_neg at hlt
          rcases hsix with h6 | ⟨pre, post, hpp, hsum⟩
          · omega
          · rcases pre with _ | ⟨p0, pre2⟩
            · simp at hsum; omega
            · injection hpp with h1 h2
              subst h1
              have hsum2 : c.length + p.length + pre2.flatten.length = 6 := by
                simpa [Nat.add_assoc] using hsum
              have hlen : (c ++ p).length = (framedPacket rest).length := by rw [hfin]
              rw [framedPacket_length] at hlen
              simp at hlen
              omega
        have hpne : p ≠ [] := by
          rintro rfl
          simp at hfin
          exact hne hfin
        have hlastp : p.getLast? = some ASCII_ETX := by
          have h1 : (c ++ p).getLast? = some ASCII_ETX := by
            rw [hfin, framedPacket_getLast? rest hrest, hlast]
          rw [List.getLast?_append] at h1
          rcases hp2 : p.getLast? with _ | a
          · exfalso
            apply hpne
            simpa using hp2
          · rw [hp2] at h1
            simpa using h1
        have hmem : p.contains ASCII_ETX = true := by
          have := mem_of_getLast?_eq p ASCII_ETX hlastp
          simpa using this
        have hlen : (c ++ p).length = 6 + rest.length := by rw [hfin, framedPacket_length]
        have hp1 : 0 < p.length := List.length_pos.mpr hpne
        rw [step_app _ _ hp hstx (by
          show ¬((c ++ p).length = 6)
          rw [hlen]
          omega)]
        simp only []
        have hdec : decide ((if 6 ≤ c.length then rest.length else 64) + HEADER_SIZE
            ≤ (c ++ p).length) = true := by
          rw [decide_eq_true_eq, if_pos hclen6, hlen]
          show rest.length + 6 ≤ 6 + rest.length
          omega
        have hstate : (⟨c ++ p, true,
            (false : Bool) || (p.contains ASCII_ETX
              && decide ((if 6 ≤ c.length then rest.length else 64) + HEADER_SIZE
                ≤ (c ++ p).length)),
            if 6 ≤ c.length then rest.length else 64⟩ : LoopState)
            = ⟨framedPacket rest, true, true, rest.length⟩ := by
          simp only [LoopState.mk.injEq]
          refine ⟨hfin, by simp, ?_, if_pos hclen6⟩
          simp only [Bool.false_or, Bool.and_eq_true, decide_eq_true_eq]
          constructor
          · exact hmem
          · rw [if_pos hclen6]
            show rest.length + 6 ≤ (c ++ p).length
            rw [hlen]
            omega
        rw [hstate, runReports_done _ rfl]
      · -- the packet is not yet complete
        have hproper : (c ++ p).length < (framedPacket rest).length := by
          have hlen := congrArg List.length hfull2
          rw [List.length_append] at hlen
          rcases Nat.lt_or_ge ((c ++ p).length) ((framedPacket rest).length) with h | h
          · exact h
          · exfalso
            have hflat : ps.flatten = [] := by
              have h0 : ps.flatten.length = 0 := by omega
              exact List.length_eq_zero.mp h0
            rw [hflat, List.append_nil] at hfull2
            exact hfin hfull2
        by_cases h6 : (c ++ p).length = 6
        · -- the buffer hits exactly the header size: the header is decoded
          have htake6 : c ++ p = [2, 105, 83, 80, 99, rest.length] := by
            have h1 : (framedPacket rest).take 6 = [2, 105, 83, 80, 99, rest.length] := by
              rw [framedPacket_eq]
              simp
            rw [← hfull2, ← h6] at h1
            rw [show (c ++ p).length = (c ++ p).length + 0 from by omega,
              take_append_len] at h1
            simpa using h1
          have hhdr : extractHeader (c ++ p) = .ok ⟨COMMAND_HEADER, rest.length⟩ := by
            rw [htake6]
            simp [extractHeader, unpackZ, COMMAND_HEADER]
          rw [step_hdr _ _ ⟨COMMAND_HEADER, rest.length⟩ hp hstx
            (by simpa [HEADER_SIZE] using h6) hhdr]
          simp only []
          have hno : ¬(HeaderFields.size ⟨COMMAND_HEADER, rest.length⟩ + HEADER_SIZE
              ≤ (c ++ p).length) := by
            show ¬(rest.length + 6 ≤ (c ++ p).length)
            rw [h6]
            omega
          rw [etx_false_of_short p _ _ hno]
          have hIH := ih (c ++ p) hfull2 hfin hplen2 (Or.inl (by omega))
          rw [hfstx, if_pos (by omega)] at hIH
          exact hIH
        · -- no header decode: the declared size stays as-is
          rw [step_app _ _ hp hstx (by simpa [HEADER_SIZE] using h6)]
          simp only []
          by_cases hc6 : 6 ≤ c.length
          · have hlt : (c ++ p).length < 6 + rest.length := by
              have h2 := hproper
              rwa [framedPacket_length] at h2
            have hno : ¬((if 6 ≤ c.length then rest.length else 64) + HEADER_SIZE
                ≤ (c ++ p).length) := by
              rw [if_pos hc6]
              show ¬(rest.length + 6 ≤ (c ++ p).length)
              omega
            rw [etx_false_of_short p _ _ hno, if_pos hc6]
            have hIH := ih (c ++ p) hfull2 hfin hplen2
              (Or.inl (by rw [List.length_append]; omega))
            rw [hfstx, if_pos (by rw [List.length_append]; omega)] at hIH
            exact hIH
          · obtain ⟨pre, post, hpp, hsum⟩ :
                ∃ pre post, p :: ps = pre ++ post ∧ c.length + pre.flatten.length = 6 := by
              rcases hsix with h | h
              · omega
              · exact h
            rcases pre with _ | ⟨p0, pre2⟩
            · simp at hsum
              omega
            · injection hpp with h1 h2
              subst h1
              have hsum2 : c.length + p.length + pre2.flatten.length = 6 := by
                simpa [Nat.add_assoc] using hsum
              have hlt6 : (c ++ p).length < 6 := by
                rw [List.length_append]
                have hne6 : c.length + p.length ≠ 6 := by
                  rw [List.length_append] at h6
                  exact h6
                omega
              have hno : ¬((if 6 ≤ c.length then rest.length else 64) + HEADER_SIZE
                  ≤ (c ++ p).length) := by
                rw [if_neg hc6]
                show ¬(64 + 6 ≤ (c ++ p).length)
                omega
              rw [etx_false_of_short p _ _ hno, if_neg hc6]
              have hIH := ih (c ++ p) hfull2 hfin hplen2
                (Or.inr ⟨pre2, post, h2, by rw [List.length_append]; omega⟩)
              rw [hfstx, if_neg (by omega)] at hIH
              exact hIH
    · -- no STX yet and none in this report: the state is unchanged
      rw [Bool.or_eq_true, not_or] at hstx
      obtain ⟨h1, hnostx⟩ := hstx
      rw [Bool.not_eq_true] at h1 hnostx
      have hc : c = [] := by
        rcases c with _ | ⟨a, t⟩
        · rfl
        · simp at h1
      subst hc
      have hpnil : p = [] := by
        rcases hq : p with _ | ⟨a, t⟩
        · rfl
        · exfalso
          rw [framedPacket_eq] at hfull2
          rw [hq] at hfull2
          simp only [List.nil_append, List.cons_append, List.cons.injEq] at hfull2
          have ha : a = 2 := hfull2.1
          rw [hq, ha] at hnostx
          simp [ASCII_STX] at hnostx
      subst hpnil
      rw [step_noSTX _ _ (by simp) (by simp) hnostx]
      simp only []
      have hsix2 : 6 ≤ ([] : List Nat).length ∨
          ∃ pre post, ps = pre ++ post ∧ ([] : List Nat).length + pre.flatten.length = 6 := by
        rcases hsix with h6 | ⟨pre, post, hpp, hsum⟩
        · simp at h6
        · rcases pre with _ | ⟨p0, pre2⟩
          · simp at hsum
          · right
            injection hpp with h1 h2
            refine ⟨pre2, post, h2, ?_⟩
            rw [← h1] at hsum
            simpa using hsum
      exact ih [] (by simpa using hfull2) hne hplen2 hsix2

/-- C5 (amended): the header is decoded only when the accumulation buffer
reaches EXACTLY the 6-byte header length (`raw.length === HEADER_SIZE`).  For
every fragmentation of a valid packet across N >= 1 raw transport reports in
which some report boundary lands exactly on the 6-byte mark, the loop yields
exactly one reassembled packet equal to the unfragmented reference bytes,
completing on the report that carries the final ETX byte once the buffer has
reached `size + HEADER_SIZE`. -/
theorem reassemblyFragmentation (rest : List Nat) (pieces : List (List Nat))
    (hrest : 1 ≤ rest.length)
    (hlast : rest.getLast? = some ASCII_ETX)
    (hjoin : pieces.flatten = framedPacket rest)
    (hsix : ∃ k, ((pieces.take k).flatten).length = 6)
    (hplen : ∀ p ∈ pieces, p.length ≤ 255) :
    runReports initLoopState (pieces.map mkReport)
      = .ok ⟨framedPacket rest, true, true, rest.length⟩ := by
  obtain ⟨k, hk⟩ := hsix
  have h := reassemblyInvariant rest hrest hlast pieces []
    (by simpa using hjoin)
    (by rw [framedPacket_eq]; simp)
    hplen
    (Or.inr ⟨pieces.take k, pieces.drop k, (List.take_append_drop k pieces).symm,
      by simpa using hk⟩)
  have hinit : (⟨[], !([] : List Nat).isEmpty, false,
      if 6 ≤ ([] : List Nat).length then rest.length else 64⟩ : LoopState)
      = initLoopState := by
    simp [initLoopState]
  rw [hinit] at h
  exact h

/-- From the initial state, a report carrying no STX byte (in particular an
empty timeout result) leaves the loop state unchanged. -/
theorem step_initial_noSTX (r : List Nat)
    (h : (((r.drop 1).take (r.getD 0 0)).contains ASCII_STX) = false) :
    commandResponseStep initLoopState r = .ok initLoopState := by
  rw [commandResponseStep]
  by_cases h0 : 0 < r.length
  · rw [if_pos h0]
    simp only [initLoopState, h, Bool.or_false]
    rfl
  · rw [if_neg h0]

/-- A whole sequence of STX-free reports leaves the loop in its initial
state: the loop neither exits nor fails. -/
theorem runReports_noSTX : ∀ (reports : List (List Nat)),
    (∀ r ∈ reports, (((r.drop 1).take (r.getD 0 0)).contains ASCII_STX) = false) →
    runReports initLoopState reports = .ok initLoopState := by
  intro reports
  induction reports with
  | nil => intro _; rfl
  | cons r rs ih =>
    intro h
    rw [runReports]
    rw [if_neg (by simp [initLoopState])]
    rw [step_initial_noSTX r (h r (List.mem_cons_self r rs))]
    exact ih (fun q hq => h q (List.mem_cons_of_mem r hq))

/-- The only error `extractHeader` raises is the header-verification one. -/
theorem extractHeader_error (bytes : List Nat) (e : String)
    (h : extractHeader bytes = .error e) : e = "Header not found" := by
  rw [extractHeader] at h
  split at h
  · injection h with h2
    exact h2.symm
  · simp at h

/-- The only error a loop iteration can raise is the header-verification
error (from decoding the 6-byte header). -/
theorem step_error (s : LoopState) (r : List Nat) (e : String)
    (h : commandResponseStep s r = .error e) : e = "Header not found" := by
  simp only [commandResponseStep] at h
  split at h
  · split at h
    · split at h
      · split at h
        · rename_i heq
          injection h with h2
          subst h2
          exact extractHeader_error _ _ heq
        · simp at h
      · simp at h
    · simp at h
  · simp at h

/-- The read loop can only fail with the header-verification error: no
Timeout failure can arise from the loop itself. -/
theorem runReports_error_header : ∀ (reports : List (List Nat)) (s : LoopState) (e : String),
    runReports s reports = .error e → e = "Header not found" := by
  intro reports
  induction reports with
  | nil =>
    intro s e h
    simp [runReports] at h
  | cons r rs ih =>
    intro s e h
    rw [runReports] at h
    by_cases hf : s.foundETX = true
    · rw [if_pos hf] at h
      simp at h
    · rw [if_neg hf] at h
      rcases hstep : commandResponseStep s r with e2 | s2
      · rw [hstep] at h
        injection h with h2
        subst h2
        exact step_error s r e2 hstep
      · rw [hstep] at h
        exact ih s2 e h

/-- C5 counterexample: a valid 13-byte read-time packet delivered in a single
report does not complete reassembly: the buffer jumps from 0 to 13 bytes and
never equals 6, so the header is never decoded, the default 64-byte size
stays in force, and the loop keeps waiting (`foundETX` is still false). -/
theorem reassemblySingleReportCounterexample :
    runReports initLoopState [mkReport ((buildPacket CMD_READ_TIME []).drop 1)]
      = .ok ⟨(buildPacket CMD_READ_TIME []).drop 1, true, false, 64⟩ := by
  decide

/-- Witness for C5 (amended): the same read-time packet split exactly at the
6-byte header boundary reassembles into the reference bytes. -/
theorem reassemblyFragmentationWitness :
    runReports initLoopState
        [mkReport [2, 105, 83, 80, 99, 7],
         mkReport [82, 84, 73, 77, 48, 199, 3]]
      = .ok ⟨framedPacket [82, 84, 73, 77, 48, 199, 3], true, true, 7⟩ :=
  reassemblyFragmentation [82, 84, 73, 77, 48, 199, 3]
    [[2, 105, 83, 80, 99, 7], [82, 84, 73, 77, 48, 199, 3]]
    (by decide) (by decide) (by decide)
    ⟨1, by decide⟩ (by decide)

/-- C1 counterexample: five consecutive empty transport results (each the
outcome of a bounded read timeout) leave the `commandResponse` read loop in
its initial state: no Timeout error is raised and the loop has not exited,
refuting the claim that the loop terminates by failing with Timeout. -/
theorem emptyReportsNoTimeoutCounterexample :
    runReports initLoopState (List.replicate 5 []) = .ok initLoopState ∧
    initLoopState.foundETX = false := by
  constructor <;> decide

/-- C1 (amended): empty results and reports without the start-control byte
leave the read loop state unchanged, so a transport that persistently
returns them makes the loop run forever rather than fail: the bounded read
timeout never exits the loop, and the only failure the loop itself can raise
is the header-verification error — never a Timeout. -/
theorem readLoopNoTimeoutExit :
    (∀ n, runReports initLoopState (List.replicate n []) = .ok initLoopState) ∧
    (∀ (reports : List (List Nat)),
      (∀ r ∈ reports, (((r.drop 1).take (r.getD 0 0)).contains ASCII_STX) = false) →
      runReports initLoopState reports = .ok initLoopState) ∧
    (∀ (reports : List (List Nat)) (s : LoopState) (e : String),
      runReports s reports = .error e → e = "Header not found") := by
  refine ⟨?_, runReports_noSTX, runReports_error_header⟩
  intro n
  apply runReports_noSTX
  intro r hr
  rw [List.eq_of_mem_replicate hr]
  rfl

/-- Witness for C1 (amended): three empty reports leave the state unchanged;
a concrete STX-free report leaves it unchanged; a concrete bad-header report
makes the loop fail with the header-verification error. -/
theorem readLoopNoTimeoutExitWitness :
    runReports initLoopState (List.replicate 3 []) = .ok initLoopState ∧
    runReports initLoopState [[4, 9, 9, 9, 9]] = .ok initLoopState ∧
    "Header not found" = "Header not found" :=
  ⟨readLoopNoTimeoutExit.1 3,
   readLoopNoTimeoutExit.2.1 [[4, 9, 9, 9, 9]] (by decide),
   readLoopNoTimeoutExit.2.2 [[6, 2, 0, 0, 0, 0, 0]] initLoopState "Header not found"
     (by decide)⟩

end CareSens
